import Mathlib

/-!
Shallow embedding of `src/server.js`, an Express + Mongoose HTTP API managing
two collections: users and storage-purchase payments.

Modelling choices:
* The MongoDB database is a `DB` record holding the list of user documents,
  the list of payment documents (in insertion order, which is the natural
  retrieval order used by `find()`), and a counter `nextId` from which the
  system-generated payment identifiers (`_id`) are drawn.
* Request bodies are Lean `Option`-typed fields: `none` is an absent JSON
  field (`undefined`), `some v` a present one.  JavaScript truthiness of a
  possibly absent string or number (`!uid`, `!gb`, ...) is `jsTruthyStr` /
  `jsTruthyNum`: `undefined`, the empty string and the number 0 are falsy.
* The `storageGB` field of the storage route may carry a value of any JSON
  type (`typeof storageGB !== "number"` is checked in the handler), so that
  body field is modelled by `Option JVal`.
* Each route handler becomes a pure function from the request data and the
  current `DB` to a response paired with the new `DB`.
* Mongoose / MongoDB operations used by the handlers:
  `findOne` returns the first document matching the filter;
  `save` on a `User` enforces the two unique indexes (`uid`, `email`) and
  rejects with a duplicate-key error, surfaced by the handler as a 500;
  `findOneAndUpdate` with `$inc` and `new:true` atomically increments the
  first matching document and returns the updated document;
  `findByIdAndUpdate(id, { status }, { new: true })` updates the matched
  document and returns it; when `status` is `undefined`, Mongoose strips the
  undefined key from the update, so the document is returned unchanged.
* Numbers are modelled by `Int` (the deltas and quantities in the claims are
  integral) and timestamps (`Date.now`) by a `Nat` parameter `now`.
-/

namespace DBBackend

/-- A JSON scalar value, as found in a request body field. -/
inductive JVal where
  | num (n : Int)
  | str (s : String)
  | boolVal (b : Bool)
  | nullVal
deriving DecidableEq

/-- JavaScript truthiness of a possibly absent string field (`!x`). -/
def jsTruthyStr : Option String → Bool
  | none => false
  | some s => s != ""

/-- JavaScript truthiness of a possibly absent numeric field (`!x`). -/
def jsTruthyNum : Option Int → Bool
  | none => false
  | some n => n != 0

/-- A document of the `User` collection (`userSchema`, server.js lines 22-27):
`uid` required unique, `name` optional, `email` required unique,
`storageGB` numeric with default 0. -/
structure UserRec where
  uid : String
  name : Option String
  email : String
  storageGB : Int
deriving DecidableEq

/-- A document of the `Payment` collection (`paymentSchema`, server.js lines
34-41): `id` is the system-generated `_id`, `status` defaults to "PENDING",
`createdAt` defaults to the creation time. -/
structure PaymentRec where
  id : Nat
  userId : String
  gb : Int
  totalPrice : Int
  upiLink : String
  status : String
  createdAt : Nat
deriving DecidableEq

/-- The persistent store: the two collections plus the id generator. -/
structure DB where
  users : List UserRec
  payments : List PaymentRec
  nextId : Nat
deriving DecidableEq

/-- The JSON responses produced by the routes the claims are about. -/
inductive ApiResponse where
  | userResp (code : Nat) (message : String) (user : UserRec)
  | userOnly (code : Nat) (user : UserRec)
  | paymentResp (code : Nat) (payment : PaymentRec)
  | paymentList (code : Nat) (payments : List PaymentRec)
  | errorResp (code : Nat) (error : String)
deriving DecidableEq

/-- `User.findOne({ uid })`: first user document whose `uid` matches. -/
def findOneUserByUid (db : DB) (uid : String) : Option UserRec :=
  db.users.find? (fun v => v.uid == uid)

/-- `Payment.findById(id)`: first payment document whose `_id` matches. -/
def findPaymentById (db : DB) (i : Nat) : Option PaymentRec :=
  db.payments.find? (fun q => q.id == i)

/-- `user.save()` under the two unique indexes of `userSchema`: rejects with a
duplicate-key error when another document already holds the same `uid` or the
same `email`; otherwise appends the document to the collection. -/
def userSave (db : DB) (u : UserRec) : Except String DB :=
  if db.users.any (fun v => v.uid == u.uid) then
    Except.error "E11000 duplicate key error: uid"
  else if db.users.any (fun v => v.email == u.email) then
    Except.error "E11000 duplicate key error: email"
  else
    Except.ok { db with users := db.users ++ [u] }

/-- `POST /api/users` (server.js lines 50-66): validate `uid`/`email`
truthiness, look up by `uid`, create and persist when absent (201), return
the existing record otherwise (200), surface save failures as 500. -/
def postApiUsers (db : DB) (uid name email : Option String) : ApiResponse × DB :=
  if jsTruthyStr uid = false || jsTruthyStr email = false then
    (ApiResponse.errorResp 400 "UID and email are required", db)
  else
    match findOneUserByUid db (uid.getD "") with
    | some user => (ApiResponse.userResp 200 "User already exists" user, db)
    | none =>
        let user : UserRec := ⟨uid.getD "", name, email.getD "", 0⟩
        match userSave db user with
        | Except.ok db2 => (ApiResponse.userResp 201 "User created" user, db2)
        | Except.error msg => (ApiResponse.errorResp 500 msg, db)

/-- `GET /api/users/:uid` (server.js lines 69-77). -/
def getApiUser (db : DB) (uid : String) : ApiResponse × DB :=
  match findOneUserByUid db uid with
  | some user => (ApiResponse.userOnly 200 user, db)
  | none => (ApiResponse.errorResp 404 "User not found", db)

/-- The `$inc : \x7b storageGB \x7d` update applied by `findOneAndUpdate` to
the first document matching the `uid` filter: returns the updated document
and the updated collection, or `none` when no document matches. -/
def incFirst : List UserRec → String → Int → Option (UserRec × List UserRec)
  | [], _, _ => none
  | u :: us, uid, d =>
      if u.uid == uid then
        some ({ u with storageGB := u.storageGB + d },
              { u with storageGB := u.storageGB + d } :: us)
      else
        match incFirst us uid d with
        | some (u2, us2) => some (u2, u :: us2)
        | none => none

/-- `PUT /api/users/:uid/storage` (server.js lines 80-96): reject a
non-numeric `storageGB` body field (400), otherwise `findOneAndUpdate` with
`$inc` and `new:true`; 404 when no user matches the `uid`. -/
def putApiUserStorage (db : DB) (uid : String) (storageGB : Option JVal) :
    ApiResponse × DB :=
  match storageGB with
  | some (JVal.num d) =>
      match incFirst db.users uid d with
      | some (user, users2) =>
          (ApiResponse.userResp 200 "Storage updated" user,
           { db with users := users2 })
      | none => (ApiResponse.errorResp 404 "User not found", db)
  | _ => (ApiResponse.errorResp 400 "storageGB must be a number", db)

/-- `POST /api/payments` (server.js lines 103-117): reject when any of the
four body fields is missing or falsy (400); otherwise persist a new document
with the schema defaults `status = "PENDING"`, `createdAt = now` and a fresh
generated identifier, and return it (201). -/
def postApiPayments (db : DB) (userId : Option String) (gb totalPrice : Option Int)
    (upiLink : Option String) (now : Nat) : ApiResponse × DB :=
  if jsTruthyStr userId = false || jsTruthyNum gb = false ||
      jsTruthyNum totalPrice = false || jsTruthyStr upiLink = false then
    (ApiResponse.errorResp 400 "Missing required fields", db)
  else
    let p : PaymentRec :=
      ⟨db.nextId, userId.getD "", gb.getD 0, totalPrice.getD 0, upiLink.getD "",
       "PENDING", now⟩
    (ApiResponse.paymentResp 201 p,
     { db with payments := db.payments ++ [p], nextId := db.nextId + 1 })

/-- `GET /api/payments` (server.js lines 120-127): every payment document in
the natural retrieval order. -/
def getApiPayments (db : DB) : ApiResponse × DB :=
  (ApiResponse.paymentList 200 db.payments, db)

/-- The update applied by `findByIdAndUpdate(id, \x7b status \x7d, new:true)`
to the first document matching the id: sets `status` when the body carried
one, leaves the document unchanged when the body field was `undefined`
(Mongoose strips undefined keys from the update). -/
def setStatusFirst : List PaymentRec → Nat → Option String → Option (PaymentRec × List PaymentRec)
  | [], _, _ => none
  | p :: ps, i, st =>
      if p.id == i then
        match st with
        | some s => some ({ p with status := s }, { p with status := s } :: ps)
        | none => some (p, p :: ps)
      else
        match setStatusFirst ps i st with
        | some (p2, ps2) => some (p2, p :: ps2)
        | none => none

/-- `PUT /api/payments/:id` (server.js lines 130-143): set the status field
unconditionally via `findByIdAndUpdate` and return the updated record; 404
when the identifier matches no document. -/
def putApiPayment (db : DB) (i : Nat) (status : Option String) : ApiResponse × DB :=
  match setStatusFirst db.payments i status with
  | some (p, ps) => (ApiResponse.paymentResp 200 p, { db with payments := ps })
  | none => (ApiResponse.errorResp 404 "Payment not found", db)

/-- The empty store, as on first connection to a fresh database. -/
def emptyDB : DB := ⟨[], [], 0⟩

/-- Two user documents that can legally coexist under the unique indexes of
`userSchema`: distinct `uid` and distinct `email`. -/
def uidEmailDistinct (a b : UserRec) : Bool :=
  (a.uid != b.uid) && (a.email != b.email)

/-- The user collection respects both unique indexes: every two documents
differ in `uid` and in `email`. -/
def usersDistinct : List UserRec → Bool
  | [] => true
  | u :: us => us.all (fun v => uidEmailDistinct u v) && usersDistinct us

/-- The `uid`/`email` uniqueness invariant of the store. -/
def UsersUnique (db : DB) : Prop := usersDistinct db.users = true

/-- Every payment identifier already in the store is below the generator
counter, so the next generated identifier is fresh. -/
def PaymentIdsFresh (db : DB) : Prop := ∀ p ∈ db.payments, p.id < db.nextId

theorem find?_append_of_none {α : Type} (p : α → Bool) (l1 l2 : List α)
    (h : l1.find? p = none) : (l1 ++ l2).find? p = l2.find? p := by
  induction l1 with
  | nil => rfl
  | cons a t ih =>
      cases hm : p a with
      | true => simp only [List.find?, hm] at h; cases h
      | false =>
          simp only [List.find?, hm] at h
          rw [List.cons_append]
          simp only [List.find?, hm]
          exact ih h

theorem incFirst_of_find (us : List UserRec) (uid : String) (d : Int) (u : UserRec)
    (h : us.find? (fun v => v.uid == uid) = some u) :
    ∃ k, us[k]? = some u ∧
      incFirst us uid d =
        some ({ u with storageGB := u.storageGB + d },
              us.set k { u with storageGB := u.storageGB + d }) := by
  induction us with
  | nil => cases h
  | cons a t ih =>
      cases hm : (a.uid == uid) with
      | true =>
          simp only [List.find?, hm] at h
          injection h with h
          subst h
          exact ⟨0, by simp, by simp [incFirst, hm]⟩
      | false =>
          simp only [List.find?, hm] at h
          obtain ⟨k, hk, hi⟩ := ih h
          exact ⟨k + 1, by simpa using hk, by simp [incFirst, hm, hi]⟩

theorem incFirst_of_find_none (us : List UserRec) (uid : String) (d : Int)
    (h : us.find? (fun v => v.uid == uid) = none) :
    incFirst us uid d = none := by
  induction us with
  | nil => rfl
  | cons a t ih =>
      cases hm : (a.uid == uid) with
      | true => simp only [List.find?, hm] at h; cases h
      | false =>
          simp only [List.find?, hm] at h
          simp [incFirst, hm, ih h]

theorem incFirst_all (f : UserRec → Bool)
    (hf : ∀ v s, f { v with storageGB := s } = f v) :
    ∀ us uid d u2 us2, incFirst us uid d = some (u2, us2) → us2.all f = us.all f := by
  intro us
  induction us with
  | nil => intro uid d u2 us2 h; cases h
  | cons a t ih =>
      intro uid d u2 us2 h
      cases hm : (a.uid == uid) with
      | true =>
          rw [incFirst, if_pos hm] at h
          injection h with h
          rw [Prod.mk.injEq] at h
          obtain ⟨h1, h2⟩ := h
          subst h2
          simp [hf]
      | false =>
          rw [incFirst, if_neg (by simp [hm])] at h
          cases hr : incFirst t uid d with
          | none => rw [hr] at h; cases h
          | some r =>
              rw [hr] at h
              injection h with h
              rw [Prod.mk.injEq] at h
              obtain ⟨h1, h2⟩ := h
              subst h2
              simp [ih uid d r.1 r.2 (by rw [hr]),
                    List.all_cons]

theorem usersDistinct_incFirst :
    ∀ us uid d u2 us2, incFirst us uid d = some (u2, us2) →
      usersDistinct us = true → usersDistinct us2 = true := by
  intro us
  induction us with
  | nil => intro uid d u2 us2 h; cases h
  | cons a t ih =>
      intro uid d u2 us2 h hd
      rw [usersDistinct, Bool.and_eq_true] at hd
      obtain ⟨hall, htail⟩ := hd
      cases hm : (a.uid == uid) with
      | true =>
          rw [incFirst, if_pos hm] at h
          injection h with h
          rw [Prod.mk.injEq] at h
          obtain ⟨h1, h2⟩ := h
          subst h2
          rw [usersDistinct, Bool.and_eq_true]
          exact ⟨hall, htail⟩
      | false =>
          rw [incFirst, if_neg (by simp [hm])] at h
          cases hr : incFirst t uid d with
          | none => rw [hr] at h; cases h
          | some r =>
              rw [hr] at h
              injection h with h
              rw [Prod.mk.injEq] at h
              obtain ⟨h1, h2⟩ := h
              subst h2
              rw [usersDistinct, Bool.and_eq_true]
              refine ⟨?_, ih uid d r.1 r.2 (by rw [hr]) htail⟩
              rw [incFirst_all (fun v => uidEmailDistinct a v) (fun v s => rfl)
                    t uid d r.1 r.2 (by rw [hr])]
              exact hall

theorem usersDistinct_append (us : List UserRec) (u : UserRec)
    (hU : usersDistinct us = true)
    (ha : us.all (fun v => uidEmailDistinct v u) = true) :
    usersDistinct (us ++ [u]) = true := by
  induction us with
  | nil => rfl
  | cons a t ih =>
      rw [usersDistinct, Bool.and_eq_true] at hU
      rw [List.all_cons, Bool.and_eq_true] at ha
      rw [List.cons_append, usersDistinct, Bool.and_eq_true]
      refine ⟨?_, ih hU.2 ha.2⟩
      rw [List.all_append, Bool.and_eq_true]
      refine ⟨hU.1, ?_⟩
      simp only [List.all_cons, List.all_nil, Bool.and_true]
      exact ha.1

theorem all_distinct_of_any_false (us : List UserRec) (u : UserRec)
    (h1 : us.any (fun v => v.uid == u.uid) = false)
    (h2 : us.any (fun v => v.email == u.email) = false) :
    us.all (fun v => uidEmailDistinct v u) = true := by
  rw [List.all_eq_true]
  intro v hv
  rw [List.any_eq_false] at h1 h2
  have hu := h1 v hv
  have he := h2 v hv
  simp only [Bool.not_eq_true] at hu he
  simp [uidEmailDistinct, bne, hu, he]

theorem userSave_ok (db : DB) (u : UserRec) (db2 : DB)
    (h : userSave db u = Except.ok db2) :
    db.users.any (fun v => v.uid == u.uid) = false ∧
    db.users.any (fun v => v.email == u.email) = false ∧
    db2 = { db with users := db.users ++ [u] } := by
  rw [userSave] at h
  cases h1 : db.users.any (fun v => v.uid == u.uid) with
  | true => rw [if_pos (by rw [h1])] at h; cases h
  | false =>
      rw [if_neg (by rw [h1]; exact Bool.false_ne_true)] at h
      cases h2 : db.users.any (fun v => v.email == u.email) with
      | true => rw [if_pos (by rw [h2])] at h; cases h
      | false =>
          rw [if_neg (by rw [h2]; exact Bool.false_ne_true)] at h
          injection h with h
          exact ⟨rfl, rfl, h.symm⟩

theorem setStatusFirst_of_find (ps : List PaymentRec) (i : Nat) (st : String)
    (p : PaymentRec) (h : ps.find? (fun q => q.id == i) = some p) :
    ∃ ps2, setStatusFirst ps i (some st) = some ({ p with status := st }, ps2) ∧
      { p with status := st } ∈ ps2 := by
  induction ps with
  | nil => cases h
  | cons a t ih =>
      cases hm : (a.id == i) with
      | true =>
          simp only [List.find?, hm] at h
          injection h with h
          subst h
          exact ⟨{ a with status := st } :: t, by simp [setStatusFirst, hm],
                 List.mem_cons_self ..⟩
      | false =>
          simp only [List.find?, hm] at h
          obtain ⟨ps2, hs, hmem⟩ := ih h
          exact ⟨a :: ps2, by simp [setStatusFirst, hm, hs],
                 List.mem_cons_of_mem _ hmem⟩

theorem setStatusFirst_none_status (ps : List PaymentRec) (i : Nat) (p : PaymentRec)
    (h : ps.find? (fun q => q.id == i) = some p) :
    setStatusFirst ps i none = some (p, ps) := by
  induction ps with
  | nil => cases h
  | cons a t ih =>
      cases hm : (a.id == i) with
      | true =>
          simp only [List.find?, hm] at h
          injection h with h
          subst h
          simp [setStatusFirst, hm]
      | false =>
          simp only [List.find?, hm] at h
          simp [setStatusFirst, hm, ih h]

theorem setStatusFirst_of_none (ps : List PaymentRec) (i : Nat) (st : Option String)
    (h : ps.find? (fun q => q.id == i) = none) :
    setStatusFirst ps i st = none := by
  induction ps with
  | nil => rfl
  | cons a t ih =>
      cases hm : (a.id == i) with
      | true => simp only [List.find?, hm] at h; cases h
      | false =>
          simp only [List.find?, hm] at h
          simp [setStatusFirst, hm, ih h]

/-- C1: for every stored user found by `uid` and every integer delta `d`, the
storage-adjustment route increments the stored `storageGB` field by exactly
`d` (additive, not an absolute set), persists the change, and returns the
updated record; in particular, starting from `storageGB = 0`, applying +5,
+5 and then -3 yields `storageGB = 7`, with no lower or upper bound enforced
on the counter (the delta is an arbitrary integer). -/
theorem C1_adjust_storage_additive (db : DB) (uid : String) (u : UserRec) (d : Int)
    (h : findOneUserByUid db uid = some u) :
    (∃ k, db.users[k]? = some u ∧
      putApiUserStorage db uid (some (JVal.num d)) =
        (ApiResponse.userResp 200 "Storage updated"
            { u with storageGB := u.storageGB + d },
         { db with users :=
             db.users.set k { u with storageGB := u.storageGB + d } })) ∧
    (putApiUserStorage
        ((putApiUserStorage
            ((putApiUserStorage ⟨[⟨"u", none, "e@x", 0⟩], [], 0⟩ "u"
                (some (JVal.num 5))).2) "u" (some (JVal.num 5))).2) "u"
        (some (JVal.num (-3)))).1 =
      ApiResponse.userResp 200 "Storage updated" ⟨"u", none, "e@x", 7⟩ := by
  constructor
  · obtain ⟨k, hk, hi⟩ := incFirst_of_find db.users uid d u h
    exact ⟨k, hk, by simp [putApiUserStorage, hi]⟩
  · decide

theorem C1_adjust_storage_additive_witness :
    (putApiUserStorage
        ((putApiUserStorage
            ((putApiUserStorage ⟨[⟨"u", none, "e@x", 0⟩], [], 0⟩ "u"
                (some (JVal.num 5))).2) "u" (some (JVal.num 5))).2) "u"
        (some (JVal.num (-3)))).1 =
      ApiResponse.userResp 200 "Storage updated" ⟨"u", none, "e@x", 7⟩ :=
  (C1_adjust_storage_additive ⟨[⟨"w", none, "w@x", 2⟩], [], 0⟩ "w"
      ⟨"w", none, "w@x", 2⟩ (-9) (by decide)).2

/-- C5: the storage-adjustment route rejects every request whose `storageGB`
body field is not a number with a 400 validation error and an unchanged
store, and for a numeric delta on a `uid` matching no stored user it fails
with a 404 and leaves the store unchanged, so no user record is created. -/
theorem C5_adjust_storage_errors (db : DB) (uid : String) (body : Option JVal) (d : Int) :
    ((∀ n : Int, body ≠ some (JVal.num n)) →
      putApiUserStorage db uid body =
        (ApiResponse.errorResp 400 "storageGB must be a number", db)) ∧
    (findOneUserByUid db uid = none →
      putApiUserStorage db uid (some (JVal.num d)) =
        (ApiResponse.errorResp 404 "User not found", db)) := by
  constructor
  · intro hb
    cases body with
    | none => rfl
    | some v =>
        cases v with
        | num n => exact absurd rfl (hb n)
        | str s => rfl
        | boolVal b => rfl
        | nullVal => rfl
  · intro hn
    simp [putApiUserStorage, incFirst_of_find_none db.users uid d hn]

theorem C5_adjust_storage_errors_witness :
    putApiUserStorage emptyDB "g" (some (JVal.str "five")) =
      (ApiResponse.errorResp 400 "storageGB must be a number", emptyDB) ∧
    putApiUserStorage emptyDB "g" (some (JVal.num 4)) =
      (ApiResponse.errorResp 404 "User not found", emptyDB) :=
  ⟨(C5_adjust_storage_errors emptyDB "g" (some (JVal.str "five")) 4).1 (by simp),
   (C5_adjust_storage_errors emptyDB "g" (some (JVal.str "five")) 4).2 (by decide)⟩

/-- C8: user create-or-fetch rejects every request whose `uid` or `email`
body field is missing with a 400 validation error, before any store
operation, leaving the set of stored users unchanged. -/
theorem C8_user_validation (db : DB) (u n e : Option String)
    (h : u = none ∨ e = none) :
    postApiUsers db u n e = (ApiResponse.errorResp 400 "UID and email are required", db) := by
  rcases h with h | h <;> subst h <;> simp [postApiUsers, jsTruthyStr]

theorem C8_user_validation_witness :
    postApiUsers emptyDB none none (some "e@x") =
      (ApiResponse.errorResp 400 "UID and email are required", emptyDB) :=
  C8_user_validation emptyDB none none (some "e@x") (Or.inl rfl)

/-- C9: updating a stored payment with a request body carrying no `status`
field succeeds with 200 and returns the record with every field, `status`
included, unchanged, and the store is unchanged. -/
theorem C9_status_update_missing_field (db : DB) (i : Nat) (p : PaymentRec)
    (h : findPaymentById db i = some p) :
    putApiPayment db i none = (ApiResponse.paymentResp 200 p, db) := by
  simp [putApiPayment, setStatusFirst_none_status db.payments i p h]

theorem C9_status_update_missing_field_witness :
    putApiPayment ⟨[], [⟨3, "u1", 5, 100, "upi://x", "PENDING", 9⟩], 4⟩ 3 none =
      (ApiResponse.paymentResp 200 ⟨3, "u1", 5, 100, "upi://x", "PENDING", 9⟩,
       ⟨[], [⟨3, "u1", 5, 100, "upi://x", "PENDING", 9⟩], 4⟩) :=
  C9_status_update_missing_field ⟨[], [⟨3, "u1", 5, 100, "upi://x", "PENDING", 9⟩], 4⟩
    3 ⟨3, "u1", 5, 100, "upi://x", "PENDING", 9⟩ (by decide)

/-- C10: the storage adjustment modifies only the targeted user's `storageGB`
field: the updated record keeps its `uid`, `name` and `email`; every other
position of the user collection, the whole payment collection and the id
counter are unchanged. -/
theorem C10_adjust_storage_frame (db : DB) (uid : String) (u : UserRec) (d : Int)
    (h : findOneUserByUid db uid = some u) :
    ∃ k, db.users[k]? = some u ∧
      (putApiUserStorage db uid (some (JVal.num d))).2.users =
        db.users.set k { u with storageGB := u.storageGB + d } ∧
      ({ u with storageGB := u.storageGB + d }).uid = u.uid ∧
      ({ u with storageGB := u.storageGB + d }).name = u.name ∧
      ({ u with storageGB := u.storageGB + d }).email = u.email ∧
      (∀ j, j ≠ k →
        (putApiUserStorage db uid (some (JVal.num d))).2.users[j]? = db.users[j]?) ∧
      (putApiUserStorage db uid (some (JVal.num d))).2.payments = db.payments ∧
      (putApiUserStorage db uid (some (JVal.num d))).2.nextId = db.nextId := by
  obtain ⟨k, hk, hi⟩ := incFirst_of_find db.users uid d u h
  refine ⟨k, hk, ?_, rfl, rfl, rfl, ?_, ?_, ?_⟩
  · simp [putApiUserStorage, hi]
  · intro j hj
    simp only [putApiUserStorage, hi]
    exact List.getElem?_set_ne (Ne.symm hj)
  · simp [putApiUserStorage, hi]
  · simp [putApiUserStorage, hi]

theorem C10_adjust_storage_frame_witness :
    (putApiUserStorage
        ⟨[⟨"a", some "A", "a@x", 1⟩, ⟨"b", none, "b@x", 2⟩],
         [⟨0, "a", 1, 10, "upi://a", "PENDING", 0⟩], 1⟩
        "b" (some (JVal.num 4))).2.users[0]? = some ⟨"a", some "A", "a@x", 1⟩ := by
  obtain ⟨k, hk, hset, hu1, hu2, hu3, hother, hpay, hnext⟩ :=
    C10_adjust_storage_frame
      ⟨[⟨"a", some "A", "a@x", 1⟩, ⟨"b", none, "b@x", 2⟩],
       [⟨0, "a", 1, 10, "upi://a", "PENDING", 0⟩], 1⟩
      "b" ⟨"b", none, "b@x", 2⟩ 4 (by decide)
  have hk1 : k = 1 := by
    cases k with
    | zero => exact absurd hk (by decide)
    | succ m =>
        cases m with
        | zero => rfl
        | succ m2 => cases hk
  rw [hother 0 (by rw [hk1]; exact Nat.zero_ne_one)]
  rfl

/-- C2: creating a user with a fresh `uid` persists the record and reports
"User created" with 201; a second create-or-fetch call with the same `uid`
and any (validation-passing) name and email returns the already stored
record unchanged with "User already exists" and 200, and leaves the store
exactly as after the first call, so no duplicate is persisted and the second
call has no side effect. -/
theorem C2_create_user_idempotent (db : DB) (s e : String) (n : Option String)
    (hs : s ≠ "") (he : e ≠ "")
    (habs : findOneUserByUid db s = none)
    (hem : db.users.any (fun v => v.email == e) = false) :
    postApiUsers db (some s) n (some e) =
      (ApiResponse.userResp 201 "User created" ⟨s, n, e, 0⟩,
       { db with users := db.users ++ [⟨s, n, e, 0⟩] }) ∧
    ∀ n2 : Option String, ∀ e2 : String, e2 ≠ "" →
      postApiUsers { db with users := db.users ++ [⟨s, n, e, 0⟩] }
          (some s) n2 (some e2) =
        (ApiResponse.userResp 200 "User already exists" ⟨s, n, e, 0⟩,
         { db with users := db.users ++ [⟨s, n, e, 0⟩] }) := by
  have huid : db.users.any (fun v => v.uid == s) = false := by
    rw [List.any_eq_false]
    intro v hv
    exact List.find?_eq_none.mp habs v hv
  have habs2 : db.users.find? (fun v => v.uid == s) = none := habs
  constructor
  · simp [postApiUsers, jsTruthyStr, hs, he, findOneUserByUid, habs2,
          userSave, huid, hem]
  · intro n2 e2 he2
    have hf2 : findOneUserByUid { db with users := db.users ++ [⟨s, n, e, 0⟩] } s =
        some ⟨s, n, e, 0⟩ := by
      rw [findOneUserByUid]
      show (db.users ++ [(⟨s, n, e, 0⟩ : UserRec)]).find? (fun v => v.uid == s) = _
      rw [find?_append_of_none _ _ _ habs]
      simp [List.find?]
    simp [postApiUsers, jsTruthyStr, hs, he2, hf2]

theorem C2_create_user_idempotent_witness :
    postApiUsers ⟨[⟨"a", none, "a@x", 0⟩], [], 5⟩ (some "a") (some "B") (some "b@x") =
      (ApiResponse.userResp 200 "User already exists" ⟨"a", none, "a@x", 0⟩,
       ⟨[⟨"a", none, "a@x", 0⟩], [], 5⟩) := by
  have h :=
    (C2_create_user_idempotent ⟨[], [], 5⟩ "a" "a@x" none (by decide) (by decide)
        (by decide) (by decide)).2 (some "B") "b@x" (by decide)
  exact h

/-- C3: payment creation is rejected with a 400 validation error and an
unchanged store whenever any of `userId`, `gb`, `totalPrice`, `upiLink` is
missing or falsy, in particular the numerically valid `gb = 0` is rejected;
with all four fields truthy (gb = 5, totalPrice = 100, upiLink = "upi://x",
userId = "u1") the creation succeeds with 201. -/
theorem C3_payment_validation (db : DB) (userId : Option String)
    (gb totalPrice : Option Int) (upiLink : Option String) (now : Nat)
    (h : jsTruthyStr userId = false ∨ jsTruthyNum gb = false ∨
         jsTruthyNum totalPrice = false ∨ jsTruthyStr upiLink = false) :
    postApiPayments db userId gb totalPrice upiLink now =
      (ApiResponse.errorResp 400 "Missing required fields", db) ∧
    postApiPayments db (some "u1") (some 0) (some 100) (some "upi://x") now =
      (ApiResponse.errorResp 400 "Missing required fields", db) ∧
    (postApiPayments db (some "u1") (some 5) (some 100) (some "upi://x") now).1 =
      ApiResponse.paymentResp 201 ⟨db.nextId, "u1", 5, 100, "upi://x", "PENDING", now⟩ := by
  refine ⟨?_, ?_, ?_⟩
  · rcases h with h | h | h | h <;> simp [postApiPayments, h]
  · simp [postApiPayments, jsTruthyNum]
  · simp [postApiPayments, jsTruthyStr, jsTruthyNum]

theorem C3_payment_validation_witness :
    postApiPayments emptyDB (some "u1") (some 0) (some 100) (some "upi://x") 44 =
      (ApiResponse.errorResp 400 "Missing required fields", emptyDB) :=
  (C3_payment_validation emptyDB (some "u1") (some 0) (some 100) (some "upi://x") 44
      (Or.inr (Or.inl (by decide)))).1

/-- C4: for every stored payment identifier and every supplied status string,
including values outside PENDING, SUCCESS, FAILED, the status update sets the
status field to exactly that value with no enum validation, returns the
updated record with 200, and a subsequent listing reflects the new value;
for an identifier matching no record it fails with 404 and an unchanged
store. -/
theorem C4_payment_status_update (db : DB) (i : Nat) (st : String) :
    (∀ p, findPaymentById db i = some p →
      ∃ ps2, putApiPayment db i (some st) =
          (ApiResponse.paymentResp 200 { p with status := st },
           { db with payments := ps2 }) ∧
        getApiPayments (putApiPayment db i (some st)).2 =
          (ApiResponse.paymentList 200 ps2, { db with payments := ps2 }) ∧
        { p with status := st } ∈ ps2) ∧
    (findPaymentById db i = none →
      putApiPayment db i (some st) =
        (ApiResponse.errorResp 404 "Payment not found", db)) := by
  constructor
  · intro p hp
    obtain ⟨ps2, hsf, hmem⟩ := setStatusFirst_of_find db.payments i st p hp
    refine ⟨ps2, by simp [putApiPayment, hsf], ?_, hmem⟩
    simp [putApiPayment, hsf, getApiPayments]
  · intro hn
    simp [putApiPayment, setStatusFirst_of_none db.payments i (some st) hn]

theorem C4_payment_status_update_witness :
    (putApiPayment ⟨[], [⟨7, "u1", 5, 100, "upi://x", "PENDING", 1⟩], 8⟩ 7
        (some "WEIRD")).1 =
      ApiResponse.paymentResp 200 ⟨7, "u1", 5, 100, "upi://x", "WEIRD", 1⟩ := by
  obtain ⟨ps2, h1, h2, h3⟩ :=
    (C4_payment_status_update ⟨[], [⟨7, "u1", 5, 100, "upi://x", "PENDING", 1⟩], 8⟩
        7 "WEIRD").1 ⟨7, "u1", 5, 100, "upi://x", "PENDING", 1⟩ (by decide)
  rw [h1]

theorem usersUnique_postApiUsers (db : DB) (hu : UsersUnique db)
    (u n e : Option String) : UsersUnique (postApiUsers db u n e).2 := by
  rw [postApiUsers]
  split
  · exact hu
  · split
    · exact hu
    · dsimp only
      split
      · rename_i db2 heq
        obtain ⟨h1, h2, h3⟩ := userSave_ok db _ db2 heq
        subst h3
        exact usersDistinct_append db.users _ hu (all_distinct_of_any_false _ _ h1 h2)
      · exact hu

theorem usersUnique_putApiUserStorage (db : DB) (hu : UsersUnique db)
    (uid : String) (body : Option JVal) :
    UsersUnique (putApiUserStorage db uid body).2 := by
  cases body with
  | none => exact hu
  | some v =>
      cases v with
      | num d =>
          rw [putApiUserStorage]
          split
          · rename_i user users2 heq
            exact usersDistinct_incFirst db.users uid d user users2 heq hu
          · exact hu
      | str s => exact hu
      | boolVal b => exact hu
      | nullVal => exact hu

theorem getApiUser_db (db : DB) (uid : String) : (getApiUser db uid).2 = db := by
  rw [getApiUser]
  cases findOneUserByUid db uid with
  | some w => rfl
  | none => rfl

theorem postApiPayments_users (db : DB) (a : Option String) (g t : Option Int)
    (l : Option String) (now : Nat) :
    (postApiPayments db a g t l now).2.users = db.users := by
  rw [postApiPayments]
  split <;> rfl

theorem putApiPayment_users (db : DB) (i : Nat) (st : Option String) :
    (putApiPayment db i st).2.users = db.users := by
  rw [putApiPayment]
  split <;> rfl

theorem countP_email_le_one (us : List UserRec) (e : String)
    (hd : usersDistinct us = true) : us.countP (fun v => v.email == e) ≤ 1 := by
  induction us with
  | nil => simp
  | cons a t ih =>
      rw [usersDistinct, Bool.and_eq_true] at hd
      cases hae : (a.email == e) with
      | false =>
          rw [List.countP_cons_of_neg _ _ (by simp [hae])]
          exact ih hd.2
      | true =>
          rw [List.countP_cons_of_pos _ _ (by simp [hae])]
          have hz : t.countP (fun v => v.email == e) = 0 := by
            rw [List.countP_eq_zero]
            intro v hv
            have hall := List.all_eq_true.mp hd.1 v hv
            rw [uidEmailDistinct, Bool.and_eq_true] at hall
            have hne : a.email ≠ v.email := by
              intro hcon
              rw [hcon] at hall
              simp at hall
            have hea : a.email = e := by simpa using hae
            intro hv2
            exact hne (by rw [hea]; exact (by simpa using hv2 : v.email = e).symm)
          omega

/-- C6: `uid` and `email` are each unique across users; this invariant is
preserved by every operation of the API, and creating a second user with an
absent (hence different) `uid` but an email already stored fails with a 500
persistence error, leaves the store unchanged, and the store still holds
exactly one user with that email. -/
theorem C6_uniqueness_invariant (db : DB) (hu : UsersUnique db) :
    (∀ u n e, UsersUnique (postApiUsers db u n e).2) ∧
    (∀ uid body, UsersUnique (putApiUserStorage db uid body).2) ∧
    (∀ uid, UsersUnique (getApiUser db uid).2) ∧
    (∀ a g t l now, UsersUnique (postApiPayments db a g t l now).2) ∧
    UsersUnique (getApiPayments db).2 ∧
    (∀ i st, UsersUnique (putApiPayment db i st).2) ∧
    (∀ s2 e : String, ∀ n2 : Option String, s2 ≠ "" → e ≠ "" →
      findOneUserByUid db s2 = none →
      db.users.any (fun v => v.email == e) = true →
      postApiUsers db (some s2) n2 (some e) =
        (ApiResponse.errorResp 500 "E11000 duplicate key error: email", db) ∧
      (postApiUsers db (some s2) n2 (some e)).2.users.countP
          (fun v => v.email == e) = 1) := by
  refine ⟨fun u n e => usersUnique_postApiUsers db hu u n e,
          fun uid body => usersUnique_putApiUserStorage db hu uid body,
          fun uid => by rw [UsersUnique, getApiUser_db]; exact hu,
          fun a g t l now => by rw [UsersUnique, postApiPayments_users]; exact hu,
          hu,
          fun i st => by rw [UsersUnique, putApiPayment_users]; exact hu,
          ?_⟩
  intro s2 e n2 hs2 he hf hany
  have hf2 : db.users.find? (fun v => v.uid == s2) = none := hf
  have huid : db.users.any (fun v => v.uid == s2) = false := by
    rw [List.any_eq_false]
    intro v hv
    exact List.find?_eq_none.mp hf2 v hv
  have hcol : postApiUsers db (some s2) n2 (some e) =
      (ApiResponse.errorResp 500 "E11000 duplicate key error: email", db) := by
    simp [postApiUsers, jsTruthyStr, hs2, findOneUserByUid, hf2,
          userSave, huid, hany, he]
  refine ⟨hcol, ?_⟩
  rw [hcol]
  have hpos : 0 < db.users.countP (fun v => v.email == e) := by
    rw [List.countP_pos_iff]
    rw [List.any_eq_true] at hany
    exact hany
  have hle := countP_email_le_one db.users e hu
  show db.users.countP (fun v => v.email == e) = 1
  omega

theorem C6_uniqueness_invariant_witness :
    postApiUsers ⟨[⟨"a", none, "dup@x", 3⟩], [], 0⟩ (some "b") none (some "dup@x") =
      (ApiResponse.errorResp 500 "E11000 duplicate key error: email",
       ⟨[⟨"a", none, "dup@x", 3⟩], [], 0⟩) ∧
    UsersUnique (putApiUserStorage ⟨[⟨"a", none, "dup@x", 3⟩], [], 0⟩ "a"
        (some (JVal.num 2))).2 := by
  have h := C6_uniqueness_invariant ⟨[⟨"a", none, "dup@x", 3⟩], [], 0⟩ rfl
  exact ⟨(h.2.2.2.2.2.2 "b" "dup@x" none (by decide) (by decide) (by decide)
            (by decide)).1,
         h.2.1 "a" (some (JVal.num 2))⟩

/-- C7: a payment creation whose four fields pass validation persists a
record with `status = "PENDING"`, `createdAt` equal to the creation time and
a system-generated identifier distinct from every stored payment identifier,
returns exactly that record with 201 with `userId`, `gb`, `totalPrice`,
`upiLink` equal to the inputs, and preserves the identifier-freshness
invariant. -/
theorem C7_payment_creation (db : DB) (u2 upi : String) (g t : Int) (now : Nat)
    (hu : u2 ≠ "") (hg : g ≠ 0) (ht : t ≠ 0) (hl : upi ≠ "")
    (hfresh : PaymentIdsFresh db) :
    postApiPayments db (some u2) (some g) (some t) (some upi) now =
      (ApiResponse.paymentResp 201 ⟨db.nextId, u2, g, t, upi, "PENDING", now⟩,
       { db with
           payments := db.payments ++ [⟨db.nextId, u2, g, t, upi, "PENDING", now⟩],
           nextId := db.nextId + 1 }) ∧
    (∀ p ∈ db.payments, p.id ≠ db.nextId) ∧
    PaymentIdsFresh (postApiPayments db (some u2) (some g) (some t) (some upi) now).2 := by
  have h1 : postApiPayments db (some u2) (some g) (some t) (some upi) now =
      (ApiResponse.paymentResp 201 ⟨db.nextId, u2, g, t, upi, "PENDING", now⟩,
       { db with
           payments := db.payments ++ [⟨db.nextId, u2, g, t, upi, "PENDING", now⟩],
           nextId := db.nextId + 1 }) := by
    simp [postApiPayments, jsTruthyStr, jsTruthyNum, hu, hg, ht, hl]
  refine ⟨h1, fun p hp => Nat.ne_of_lt (hfresh p hp), ?_⟩
  rw [PaymentIdsFresh, h1]
  intro p hp
  rcases List.mem_append.mp hp with hp | hp
  · exact Nat.lt_succ_of_lt (hfresh p hp)
  · rcases List.mem_singleton.mp hp with rfl
    exact Nat.lt_succ_self _

theorem C7_payment_creation_witness :
    postApiPayments emptyDB (some "u1") (some 5) (some 100) (some "upi://x") 42 =
      (ApiResponse.paymentResp 201 ⟨0, "u1", 5, 100, "upi://x", "PENDING", 42⟩,
       ⟨[], [⟨0, "u1", 5, 100, "upi://x", "PENDING", 42⟩], 1⟩) :=
  (C7_payment_creation emptyDB "u1" "upi://x" 5 100 42 (by decide) (by decide)
      (by decide) (by decide) (by simp [PaymentIdsFresh, emptyDB])).1

end DBBackend
